import Mathlib

/-
Verification of the falling-block puzzle engine in src/script.js.

The JavaScript engine (class TetrisGame) is shallowly embedded below:
pure fragments become Lean functions, the mutable game-state object
becomes an explicit `GameState` value threaded through the operations,
and JavaScript numbers are modelled as `Int`/`Nat` on the integer-valued
paths the engine actually exercises.  The high-score store (localStorage)
and collision detection additionally need the non-finite corners of
JavaScript numbers (NaN, Infinity), modelled by `JNum`.
-/

namespace Tetris

/--
Validated session configuration (TetrisGame.validateConfig, src/script.js
lines 304-325).  Construction in the source throws a ValidationError when a
field is out of range, so every live TetrisGame carries bounds proofs;
render-only fields (block size, debounce, inactivity, error ceiling) are
omitted because no verified operation reads them.
-/
structure Config where
  width : Nat
  height : Nat
  maxLevel : Nat
  width_valid : 4 ≤ width ∧ width ≤ 50
  height_valid : 4 ≤ height ∧ height ≤ 50
  maxLevel_valid : 1 ≤ maxLevel ∧ maxLevel ≤ 1000

/-- The shape catalog `SHAPES` (src/script.js lines 5-46): for each of the
7 tetromino identities, the ordered list of precomputed rotation matrices. -/
def SHAPES : List (List (List (List Nat))) :=
  [ [ [[1, 1, 1], [0, 1, 0]],
      [[0, 1], [1, 1], [0, 1]],
      [[0, 1, 0], [1, 1, 1]],
      [[1, 0], [1, 1], [1, 0]] ],
    [ [[1, 0, 0], [1, 1, 1]],
      [[0, 1], [0, 1], [1, 1]],
      [[1, 1, 1], [0, 0, 1]],
      [[1, 1], [1, 0], [1, 0]] ],
    [ [[0, 0, 1], [1, 1, 1]],
      [[1, 1], [0, 1], [0, 1]],
      [[1, 1, 1], [1, 0, 0]],
      [[1, 0], [1, 0], [1, 1]] ],
    [ [[1, 1], [1, 1]] ],
    [ [[0, 1, 1], [1, 1, 0]],
      [[1, 0], [1, 1], [0, 1]] ],
    [ [[1, 1, 0], [0, 1, 1]],
      [[0, 1], [1, 1], [1, 0]] ],
    [ [[1, 1, 1, 1]],
      [[1], [1], [1], [1]] ] ]

/-- The current falling piece (the object built by TetrisGame.spawnPiece,
src/script.js lines 451-457).  Coordinates are integers on every reachable
engine path (spawn produces integers, moves add integers). -/
structure Piece where
  shape : List (List Nat)
  x : Int
  y : Int
  shapeIndex : Nat
  rotation : Nat
deriving DecidableEq

/-- The mutable `gameState` object (TetrisGame.createInitialGameState,
src/script.js lines 375-390). -/
structure GameState where
  board : List (List Nat)
  currentPiece : Option Piece
  score : Nat
  level : Nat
  lines : Nat
  highScore : Nat
  dropCounter : Int
  dropInterval : Int
  gameRunning : Bool
  gamePaused : Bool
  gameOver : Bool
  inactivityTimer : Int
deriving DecidableEq

/-- TetrisGame.createBoard (src/script.js lines 434-437). -/
def createBoard (cfg : Config) : List (List Nat) :=
  List.replicate cfg.height (List.replicate cfg.width 0)

/-- TetrisGame.createInitialGameState (src/script.js lines 375-390).
`hs` is the value returned by the external high-score load. -/
def createInitialGameState (cfg : Config) (hs : Nat) : GameState :=
  { board := createBoard cfg
    currentPiece := none
    score := 0
    level := 1
    lines := 0
    highScore := hs
    dropCounter := 0
    dropInterval := 1000
    gameRunning := false
    gamePaused := false
    gameOver := false
    inactivityTimer := 0 }

/-- TetrisGame.validatePiece (src/script.js lines 468-480).  The object /
array / typeof-number checks hold by construction in this embedding (a
`Piece` always has a list shape and numeric coordinates -- note that in the
source `typeof NaN === 'number'` also passes); what remains is: the matrix
is non-empty and every row is a non-empty array. -/
def validatePiece (p : Piece) : Bool :=
  !p.shape.isEmpty && p.shape.all (fun row => !row.isEmpty)

/-- Board invariant from the data model: `height` rows of exactly `width`
cells each. -/
def WellFormedBoard (cfg : Config) (board : List (List Nat)) : Prop :=
  board.length = cfg.height ∧ ∀ row ∈ board, row.length = cfg.width

instance (cfg : Config) (board : List (List Nat)) :
    Decidable (WellFormedBoard cfg board) := by
  unfold WellFormedBoard; infer_instance

/-- The per-cell test inside TetrisGame.isCollision's double loop
(src/script.js lines 511-527): boundary check, then guarded board-occupancy
check. -/
def cellCollides (cfg : Config) (board : List (List Nat)) (newX newY : Int) : Bool :=
  if newX < 0 ∨ (cfg.width : Int) ≤ newX ∨ (cfg.height : Int) ≤ newY then true
  else if 0 ≤ newY ∧ newY < (board.length : Int) ∧ 0 ≤ newX ∧
      newX < (((board.getD newY.toNat []).length : Int)) ∧
      (board.getD newY.toNat []).getD newX.toNat 0 ≠ 0 then true
  else false

/-- The double loop of TetrisGame.isCollision (src/script.js lines 504-530):
scan every occupied cell, reporting the first colliding one.  (The in-loop
throw for a non-array row is unreachable once validatePiece has accepted the
piece, since validatePiece already requires every row to be an array.) -/
def collisionScan (cfg : Config) (board : List (List Nat)) (p : Piece)
    (offsetX offsetY : Int) : Bool :=
  p.shape.enum.any fun rowPair =>
    rowPair.2.enum.any fun cellPair =>
      if cellPair.2 ≠ 0 then
        cellCollides cfg board (p.x + (cellPair.1 : Int) + offsetX)
          (p.y + (rowPair.1 : Int) + offsetY)
      else false

/-- TetrisGame.isCollision (src/script.js lines 482-537) on the
integer-coordinate pieces the engine manipulates: invalid pieces collide
(fail-closed), then the "reasonable bounds" pre-check on the piece anchor
(lines 497-501), then the cell scan.  The typeof checks on the offsets
always pass for integer offsets.  The catch-and-return-true wrapper never
fires in this embedding because the scan is total. -/
def isCollision (cfg : Config) (board : List (List Nat)) (p : Piece)
    (offsetX offsetY : Int) : Bool :=
  if validatePiece p = false then true
  else if p.x < -10 ∨ (cfg.width : Int) + 10 < p.x ∨
      p.y < -10 ∨ (cfg.height : Int) + 10 < p.y then true
  else collisionScan cfg board p offsetX offsetY

/-- Modelled from the spec (section 4.2 CollisionRule): per-cell collision
condition exactly as the specification words it, with no anchor pre-check:
a cell collides iff it maps to `boardX < 0`, `boardX >= width`,
`boardY >= height`, or to an already-occupied board cell with
`boardY >= 0`. -/
def specCellCollides (cfg : Config) (board : List (List Nat)) (newX newY : Int) : Bool :=
  if newX < 0 ∨ (cfg.width : Int) ≤ newX ∨ (cfg.height : Int) ≤ newY then true
  else if 0 ≤ newY ∧ (board.getD newY.toNat []).getD newX.toNat 0 ≠ 0 then true
  else false

/-- Modelled from the spec (section 4.2 CollisionRule): the collision test
as the specification describes it -- true iff some occupied cell of the
piece satisfies `specCellCollides`. -/
def specCollisionTest (cfg : Config) (board : List (List Nat)) (p : Piece)
    (offsetX offsetY : Int) : Bool :=
  p.shape.enum.any fun rowPair =>
    rowPair.2.enum.any fun cellPair =>
      if cellPair.2 ≠ 0 then
        specCellCollides cfg board (p.x + (cellPair.1 : Int) + offsetX)
          (p.y + (rowPair.1 : Int) + offsetY)
      else false

/-- The row-fullness test of TetrisGame.clearLines (src/script.js line 633):
`board[row].every(cell => cell !== 0)`. -/
def isFullRow (row : List Nat) : Bool :=
  row.all (fun cell => cell != 0)

/-- The empty row unshifted onto the board by TetrisGame.clearLines
(src/script.js line 635): `Array(BOARD_WIDTH).fill(0)`. -/
def emptyRow (cfg : Config) : List Nat :=
  List.replicate cfg.width 0

/-- Number of full rows on a board. -/
def countFull (board : List (List Nat)) : Nat :=
  board.countP (fun r => isFullRow r)

/-- The bottom-to-top sweep of TetrisGame.clearLines (src/script.js lines
632-639): at each index, if the row is full it is spliced out, an empty row
is unshifted at the top, the counter is incremented, and the same index is
re-examined (`row++` before the loop's `row--`); otherwise the index moves
up.  An out-of-range row access in the source raises a TypeError that the
surrounding catch absorbs, leaving the board as mutated so far; that path
is the `false` flag of the result. -/
def clearLoop (cfg : Config) (board : List (List Nat)) (row : Int) (cleared : Nat) :
    List (List Nat) × Nat × Bool :=
  if row < 0 then (board, cleared, true)
  else if hlt : row.toNat < board.length then
    if isFullRow (board[row.toNat]) = true then
      clearLoop cfg (emptyRow cfg :: board.eraseIdx row.toNat) row (cleared + 1)
    else clearLoop cfg board (row - 1) cleared
  else (board, cleared, false)
termination_by (countFull board, (row + 1).toNat)
decreasing_by
  · apply Prod.Lex.left
    have key : ∀ (l : List (List Nat)) (i : Nat) (h : i < l.length),
        isFullRow (l[i]) = true →
        (l.eraseIdx i).countP (fun r => isFullRow r) <
          l.countP (fun r => isFullRow r) := by
      intro l
      induction l with
      | nil => intro i h; exact absurd h (by simp)
      | cons a t ih =>
        intro i h hf
        cases i with
        | zero =>
          simp only [List.eraseIdx_cons_zero, List.countP_cons]
          simp only [List.getElem_cons_zero] at hf
          simp [hf]
        | succ j =>
          simp only [List.eraseIdx_cons_succ, List.countP_cons]
          have hj : j < t.length := by simpa using h
          have := ih j hj (by simpa using hf)
          omega
    have hnotfull : isFullRow (emptyRow cfg) = false := by
      have hw := cfg.width_valid.1
      simp only [isFullRow, emptyRow]
      rw [List.all_eq_false]
      refine ⟨0, by rw [List.mem_replicate]; omega, by simp⟩
    simp only [countFull, List.countP_cons, hnotfull]
    simpa using key board row.toNat hlt (by assumption)
  · apply Prod.Lex.right
    omega

/-- TetrisGame.clearLines (src/script.js lines 628-653): run the sweep,
then, when at least one line was cleared, update `lines`, `score` (with the
pre-update level), `level`, and `dropInterval` in that order.  The second
component is the final value of the function's INTERNAL `linesCleared`
counter (line 630), the quantity that drives the stat updates; it is
exposed here for specification only and is NOT returned by the source
function -- the body has no return statement, so the call itself evaluates
to undefined on every path (see `clearLinesReturnValue`).  `none` models
the caught-TypeError path on a structurally invalid board, where the
counter is lost and the stat updates are skipped. -/
def clearLines (cfg : Config) (st : GameState) : GameState × Option Nat :=
  match clearLoop cfg st.board ((cfg.height : Int) - 1) 0 with
  | (b, n, true) =>
    if 0 < n then
      let lines' := st.lines + n
      let score' := st.score + n * 100 * st.level
      let level' := min cfg.maxLevel (lines' / 10 + 1)
      let dropInterval' := max 100 (1000 - ((level' : Int) - 1) * 50)
      ({ st with board := b, lines := lines', score := score',
                 level := level', dropInterval := dropInterval' }, some n)
    else ({ st with board := b }, some 0)
  | (b, n, false) => ({ st with board := b }, none)

/-- The value of the call expression `this.clearLines()` (src/script.js
lines 628-653): the function body contains no return statement, so the
call evaluates to undefined on every path, modelled as `none`.  (The sole
caller, TetrisGame.mergePiece at line 621, discards it.) -/
def clearLinesReturnValue (_cfg : Config) (_st : GameState) : Option Nat :=
  none

/-- TetrisGame.movePiece (src/script.js lines 539-555): no piece or an
invalid piece fails; otherwise test the collision at the offset and commit
it on success. -/
def movePiece (cfg : Config) (st : GameState) (dx dy : Int) : GameState × Bool :=
  match st.currentPiece with
  | none => (st, false)
  | some p =>
    if validatePiece p = false then (st, false)
    else if isCollision cfg st.board p dx dy then (st, false)
    else ({ st with currentPiece := some { p with x := p.x + dx, y := p.y + dy } }, true)

/-- TetrisGame.rotatePiece (src/script.js lines 557-585): build the
candidate at the next listed rotation (same position), install it only when
it does not collide at zero offset.  The throw on missing shape data is
caught by handleGameError in the source and leaves the piece unchanged;
it is modelled as the identity on the state. -/
def rotatePiece (cfg : Config) (st : GameState) : GameState :=
  match st.currentPiece with
  | none => st
  | some p =>
    if validatePiece p = false then st
    else
      let shapes := SHAPES.getD p.shapeIndex []
      if shapes.isEmpty then st
      else
        let newRotation := (p.rotation + 1) % shapes.length
        let newShape := shapes.getD newRotation []
        let testPiece : Piece := { p with shape := newShape, rotation := newRotation }
        if isCollision cfg st.board testPiece 0 0 then st
        else { st with currentPiece := some testPiece }

/-- TetrisGame.endGame (src/script.js lines 845-860): set the terminal
flags and persist a beaten high score.  The external store write is outside
the game state; the in-state `highScore` update is kept. -/
def endGame (st : GameState) : GameState :=
  let st1 := { st with gameOver := true, gameRunning := false }
  if st1.score > st1.highScore then { st1 with highScore := st1.score } else st1

/-- TetrisGame.spawnPiece (src/script.js lines 439-466) with the two random
draws (shape index, rotation index) passed as parameters.  Note the order
in the source: the freshly built piece is assigned to
`gameState.currentPiece` first, and only then is the zero-offset collision
checked; `endGame` does not remove the piece.  The throw on an empty shape
entry (unreachable for the random draw `shapeIndex < SHAPES.length`) is
caught by handleGameError in the source; it is modelled as the identity. -/
def spawnPiece (cfg : Config) (st : GameState) (shapeIndex rotation : Nat) : GameState :=
  let shape := SHAPES.getD shapeIndex []
  if shape.isEmpty then st
  else
    let selectedShape := shape.getD rotation []
    let piece : Piece :=
      { shape := selectedShape
        x := ((cfg.width / 2 : Nat) : Int) - (((selectedShape.headD []).length / 2 : Nat) : Int)
        y := 0
        shapeIndex := shapeIndex
        rotation := rotation }
    let st1 := { st with currentPiece := some piece }
    if isCollision cfg st1.board piece 0 0 then endGame st1 else st1

/-- Write one value into one board cell (`board[y][x] = v`). -/
def setCell (board : List (List Nat)) (y x : Nat) (v : Nat) : List (List Nat) :=
  board.set y ((board.getD y []).set x v)

/-- The write loop of TetrisGame.mergePiece (src/script.js lines 607-619):
every occupied cell inside the configured board bounds receives the color
index `shapeIndex + 1`; off-board cells are silently dropped. -/
def mergeCells (cfg : Config) (board : List (List Nat)) (p : Piece) : List (List Nat) :=
  p.shape.enum.foldl
    (fun b rowPair =>
      rowPair.2.enum.foldl
        (fun b2 cellPair =>
          if cellPair.2 ≠ 0 then
            let boardY := p.y + (rowPair.1 : Int)
            let boardX := p.x + (cellPair.1 : Int)
            if 0 ≤ boardY ∧ boardY < (cfg.height : Int) ∧
                0 ≤ boardX ∧ boardX < (cfg.width : Int) then
              setCell b2 boardY.toNat boardX.toNat (p.shapeIndex + 1)
            else b2
          else b2)
        b)
    board

/-- TetrisGame.mergePiece (src/script.js lines 598-626): a missing or
invalid piece just respawns; otherwise write the piece into the board, run
clearLines (whose call evaluates to undefined and is discarded), and
respawn.  `si`/`rot` are the random draws consumed by the respawn. -/
def mergePiece (cfg : Config) (st : GameState) (si rot : Nat) : GameState :=
  match st.currentPiece with
  | none => spawnPiece cfg st si rot
  | some p =>
    if validatePiece p = false then spawnPiece cfg st si rot
    else
      let st1 := { st with board := mergeCells cfg st.board p }
      spawnPiece cfg (clearLines cfg st1).1 si rot

/-- Termination measure for the hard-drop while loop: once the piece's
anchor passes `height + 10` the collision pre-check fires and the downward
move fails, so `height + 12 - y` shrinks to zero. -/
def hmeasure (cfg : Config) (st : GameState) : Nat :=
  match st.currentPiece with
  | none => 0
  | some p => ((cfg.height : Int) + 12 - p.y).toNat

/-- The while loop of TetrisGame.hardDrop (src/script.js lines 589-591):
`while (movePiece(0, 1)) score += 1`. -/
def hardDropLoop (cfg : Config) (st : GameState) : GameState :=
  match h : movePiece cfg st 0 1 with
  | (st', true) => hardDropLoop cfg { st' with score := st'.score + 1 }
  | (st', false) => st'
termination_by hmeasure cfg st
decreasing_by
  simp only [movePiece] at h
  rcases hcp : st.currentPiece with _ | p
  · rw [hcp] at h; simp at h
  · rw [hcp] at h
    dsimp only at h
    by_cases hv : validatePiece p = false
    · rw [if_pos hv] at h; simp at h
    · rw [if_neg hv] at h
      by_cases hc : isCollision cfg st.board p 0 1 = true
      · rw [if_pos hc] at h; simp at h
      · rw [if_neg hc] at h
        have hcf : isCollision cfg st.board p 0 1 = false := by
          simpa using hc
        have hb : p.y ≤ (cfg.height : Int) + 10 := by
          rw [isCollision, if_neg hv] at hcf
          by_cases hpre : p.x < -10 ∨ (cfg.width : Int) + 10 < p.x ∨
              p.y < -10 ∨ (cfg.height : Int) + 10 < p.y
          · rw [if_pos hpre] at hcf; simp at hcf
          · push_neg at hpre; omega
        have hst' := congrArg Prod.fst h
        simp only at hst'
        simp only [hmeasure, ← hst', hcp]
        omega

/-- TetrisGame.hardDrop (src/script.js lines 587-596): drop until blocked,
then merge (which clears lines and respawns with the draws `si`/`rot`). -/
def hardDrop (cfg : Config) (st : GameState) (si rot : Nat) : GameState :=
  mergePiece cfg (hardDropLoop cfg st) si rot

/-- The ArrowDown intent (src/script.js lines 208-213): a successful soft
drop awards one point. -/
def softDrop (cfg : Config) (st : GameState) : GameState :=
  match movePiece cfg st 0 1 with
  | (st', true) => { st' with score := st'.score + 1 }
  | (st', false) => st'

/-- TetrisGame.pauseGame (src/script.js lines 817-836): toggle the pause
flag; an inactivity pause and any resume reset the inactivity timer. -/
def pauseGame (st : GameState) (inactivity : Bool) : GameState :=
  let st1 := { st with gamePaused := !st.gamePaused }
  if st1.gamePaused then
    if inactivity then { st1 with inactivityTimer := 0 } else st1
  else { st1 with inactivityTimer := 0 }

/-- TetrisGame.validateAndFixGameState (src/script.js lines 992-1009):
rebuild a structurally invalid board, respawn over an invalid piece (draws
`si`/`rot`), then clamp the numeric fields.  `Math.floor` and `|| 0` are
identities on the `Nat`/`Int` fields of this embedding. -/
def validateAndFixGameState (cfg : Config) (st : GameState) (si rot : Nat) : GameState :=
  let st1 := if st.board.length ≠ cfg.height then { st with board := createBoard cfg } else st
  let st2 :=
    match st1.currentPiece with
    | some p => if validatePiece p = false then spawnPiece cfg st1 si rot else st1
    | none => st1
  { st2 with
    score := max 0 st2.score
    level := max 1 (min cfg.maxLevel st2.level)
    lines := max 0 st2.lines
    dropInterval := max 100 st2.dropInterval }

/-- TetrisGame.updateGameLogic (src/script.js lines 798-807): accumulate
elapsed time; past the drop interval, move down or merge, and reset the
counter. -/
def updateGameLogic (cfg : Config) (st : GameState) (dt : Int) (si rot : Nat) : GameState :=
  let st1 := { st with dropCounter := st.dropCounter + dt }
  if st1.dropCounter > st1.dropInterval then
    match movePiece cfg st1 0 1 with
    | (st', true) => { st' with dropCounter := 0 }
    | (st', false) => { mergePiece cfg st' si rot with dropCounter := 0 }
  else st1

/-- The engine operations that mutate the game state within one session
(everything between one initialization/restart and the next). -/
inductive EngineOp where
  | move (dx dy : Int)
  | softDropOp
  | rotate
  | hardDropOp (si rot : Nat)
  | merge (si rot : Nat)
  | clear
  | spawn (si rot : Nat)
  | endOp
  | pauseOp (inactivity : Bool)
  | fix (si rot : Nat)
  | tick (dt : Int) (si rot : Nat)
deriving DecidableEq

/-- Dispatch one engine operation. -/
def applyOp (cfg : Config) (op : EngineOp) (st : GameState) : GameState :=
  match op with
  | .move dx dy => (movePiece cfg st dx dy).1
  | .softDropOp => softDrop cfg st
  | .rotate => rotatePiece cfg st
  | .hardDropOp si rot => hardDrop cfg st si rot
  | .merge si rot => mergePiece cfg st si rot
  | .clear => (clearLines cfg st).1
  | .spawn si rot => spawnPiece cfg st si rot
  | .endOp => endGame st
  | .pauseOp inactivity => pauseGame st inactivity
  | .fix si rot => validateAndFixGameState cfg st si rot
  | .tick dt si rot => updateGameLogic cfg st dt si rot

/-- Run a sequence of engine operations. -/
def applyOps (cfg : Config) (ops : List EngineOp) (st : GameState) : GameState :=
  ops.foldl (fun s op => applyOp cfg op s) st

/-- A JavaScript number restricted to the values relevant to the engine's
numeric paths: an integer, NaN, or a signed infinity.  All four satisfy
`typeof v === 'number'`. -/
inductive JNum where
  | fin (v : Int)
  | nan
  | posInf
  | negInf
deriving DecidableEq

/-- JavaScript `<` on `JNum`: every comparison involving NaN is false. -/
def jlt : JNum → JNum → Bool
  | .fin a, .fin b => a < b
  | .nan, _ => false
  | _, .nan => false
  | .negInf, .negInf => false
  | .negInf, _ => true
  | _, .negInf => false
  | .posInf, _ => false
  | .fin _, .posInf => true

/-- JavaScript `>` on `JNum`. -/
def jgt (a b : JNum) : Bool := jlt b a

/-- JavaScript `>=` on `JNum`: false whenever NaN is involved, otherwise
the negation of `<`. -/
def jge : JNum → JNum → Bool
  | .nan, _ => false
  | _, .nan => false
  | a, b => !jlt a b

/-- Add an integer to a JavaScript number (`NaN + n = NaN`,
`±Infinity + n = ±Infinity`). -/
def jaddInt : JNum → Int → JNum
  | .fin v, n => .fin (v + n)
  | .nan, _ => .nan
  | .posInf, _ => .posInf
  | .negInf, _ => .negInf

/-- Array-index view of a `JNum` (only consulted behind guards that force
the value to be a finite non-negative integer). -/
def jtoNat : JNum → Nat
  | .fin v => v.toNat
  | _ => 0

/-- A piece whose coordinates range over full JavaScript numbers, for
analyzing TetrisGame.isCollision on malformed input. -/
structure PieceJ where
  shape : List (List Nat)
  x : JNum
  y : JNum
  shapeIndex : Nat
  rotation : Nat
deriving DecidableEq

/-- TetrisGame.validatePiece (src/script.js lines 468-480) on `PieceJ`:
`typeof piece.x !== 'number'` passes for every `JNum` (including NaN and
the infinities, exactly as in JavaScript), so only the matrix structure is
checked. -/
def validatePieceJ (p : PieceJ) : Bool :=
  !p.shape.isEmpty && p.shape.all (fun row => !row.isEmpty)

/-- TetrisGame.isCollision (src/script.js lines 482-537) with the piece
coordinates as full JavaScript numbers, comparison for comparison: the
anchor pre-check (lines 497-501) and the per-cell checks (lines 511-527)
use `jlt`/`jge`, which are all false on NaN.  Board lookups only happen
behind guards that force the indices finite and in range, so the total
`getD`-with-default lookups agree with the JavaScript accesses. -/
def isCollisionNum (cfg : Config) (board : List (List Nat)) (p : PieceJ)
    (offsetX offsetY : Int) : Bool :=
  if validatePieceJ p = false then true
  else if jlt p.x (.fin (-10)) || jgt p.x (.fin ((cfg.width : Int) + 10)) ||
      jlt p.y (.fin (-10)) || jgt p.y (.fin ((cfg.height : Int) + 10)) then true
  else
    p.shape.enum.any fun rowPair =>
      rowPair.2.enum.any fun cellPair =>
        if cellPair.2 ≠ 0 then
          let newX := jaddInt p.x ((cellPair.1 : Int) + offsetX)
          let newY := jaddInt p.y ((rowPair.1 : Int) + offsetY)
          if jlt newX (.fin 0) || jge newX (.fin (cfg.width : Int)) ||
              jge newY (.fin (cfg.height : Int)) then true
          else if jge newY (.fin 0) && jlt newY (.fin (board.length : Int)) &&
              jge newX (.fin 0) &&
              jlt newX (.fin ((board.getD (jtoNat newY) []).length : Int)) &&
              ((board.getD (jtoNat newY) []).getD (jtoNat newX) 0 != 0) then true
          else false
        else false

/-- Character-code classification mirroring what `parseInt(s, 10)` skips:
ASCII whitespace. -/
def isSpaceCode (c : Nat) : Bool := c = 32 || (9 ≤ c && c ≤ 13)

/-- Character-code classification of a decimal digit. -/
def isDigitCode (c : Nat) : Bool := 48 ≤ c && c ≤ 57

/-- Modelled from the spec (section 6, high-score store) and the use of the
JavaScript builtin `parseInt(stored, 10)` in TetrisGame.loadHighScore
(src/script.js line 1045): skip leading whitespace, accept one optional
sign, read the maximal run of decimal digits (trailing characters are
ignored); no digits means NaN, modelled as `none`.  Strings are lists of
character codes. -/
def parseIntJS (s : List Nat) : Option Int :=
  let s1 := s.dropWhile isSpaceCode
  let signed : Bool × List Nat :=
    if s1.headD 0 = 45 then (true, s1.tail)
    else if s1.headD 0 = 43 then (false, s1.tail)
    else (false, s1)
  let digits := signed.2.takeWhile isDigitCode
  if digits.isEmpty then none
  else
    let v : Nat := digits.foldl (fun acc c => acc * 10 + (c - 48)) 0
    some (if signed.1 then -(v : Int) else (v : Int))

/-- Little-endian decimal digits of a natural number. -/
def toDigitsRev (n : Nat) : List Nat :=
  if n < 10 then [n] else n % 10 :: toDigitsRev (n / 10)
termination_by n
decreasing_by exact Nat.div_lt_self (by omega) (by omega)

/-- Character codes of the decimal representation of a natural number
(JavaScript `Number.prototype.toString` on a non-negative integer). -/
def natToCodes (n : Nat) : List Nat :=
  (toDigitsRev n).reverse.map (fun d => d + 48)

/-- Character codes of the decimal representation of an integer. -/
def intToCodes (v : Int) : List Nat :=
  if v < 0 then 45 :: natToCodes (-v).toNat else natToCodes v.toNat

/-- JavaScript `Number.prototype.toString` on the modelled numbers:
`NaN.toString() = "NaN"`, `Infinity.toString() = "Infinity"`. -/
def jnumToCodes : JNum → List Nat
  | .fin v => intToCodes v
  | .nan => [78, 97, 78]
  | .posInf => [73, 110, 102, 105, 110, 105, 116, 121]
  | .negInf => 45 :: [73, 110, 102, 105, 110, 105, 116, 121]

/-- JavaScript `Math.floor` on the modelled numbers: the identity on
integers, NaN and infinities. -/
def jfloor : JNum → JNum
  | .fin v => .fin v
  | .nan => .nan
  | .posInf => .posInf
  | .negInf => .negInf

/-- A value handed to the high-score save: a JavaScript number, or any
non-number value (rejected by the `typeof` guard). -/
inductive JSVal where
  | num (j : JNum)
  | other
deriving DecidableEq

/-- TetrisGame.saveHighScore (src/script.js lines 1059-1070) against an
explicit store (`none` = key absent).  Non-numbers and values failing the
range comparisons throw, and the catch leaves the store untouched;
otherwise the floored value's string is written.  Note that NaN fails
neither `score < 0` nor `score > 999999999`, so it reaches the write. -/
def saveHighScore (store : Option (List Nat)) (v : JSVal) : Option (List Nat) :=
  match v with
  | .other => store
  | .num j =>
    if jlt j (.fin 0) || jgt j (.fin 999999999) then store
    else some (jnumToCodes (jfloor j))

/-- TetrisGame.loadHighScore (src/script.js lines 1040-1057) against an
explicit store: a missing key yields 0; a stored string that parses to NaN
or out of `[0, 999999999]` removes the key and yields 0; otherwise the
parsed score is returned and the store kept.  The result is the store after
the call paired with the returned score. -/
def loadHighScore (store : Option (List Nat)) : Option (List Nat) × Int :=
  match store with
  | none => (none, 0)
  | some s =>
    match parseIntJS s with
    | none => (none, 0)
    | some v => if v < 0 ∨ 999999999 < v then (none, 0) else (some s, v)

/-- Count of consecutive successful downward moves, stopping at the first
failure (bounded by an ample fuel). -/
def dropSuccessCount (cfg : Config) : Nat → GameState → Nat
  | 0, _ => 0
  | fuel + 1, st =>
    match movePiece cfg st 0 1 with
    | (st', true) => dropSuccessCount cfg fuel st' + 1
    | (_, false) => 0

/-- Iterate `movePiece(0, 1)` a fixed number of times (failed moves leave
the state unchanged). -/
def dropIter (cfg : Config) : Nat → GameState → GameState
  | 0, st => st
  | fuel + 1, st => dropIter cfg fuel (movePiece cfg st 0 1).1

/-- The difficulty-curve invariant maintained by the engine: the level is
the capped function of the cleared-line count, and the drop interval is the
clamped linear function of the level. -/
def Inv (cfg : Config) (st : GameState) : Prop :=
  st.level = min cfg.maxLevel (st.lines / 10 + 1) ∧
  st.dropInterval = max 100 (1000 - ((st.level : Int) - 1) * 50)

/-- The default session configuration (boardWidth 12, boardHeight 20,
maxLevel 100; src/script.js lines 256-264). -/
def cfg1220 : Config :=
  ⟨12, 20, 100, by omega, by omega, by omega⟩

/-- A minimal valid configuration (4 x 4 board), convenient for concrete
evaluation. -/
def cfg44 : Config :=
  ⟨4, 4, 100, by omega, by omega, by omega⟩

/-- A running session on the default board whose cells are all occupied, so
any spawn is immediately blocked. -/
def stBlocked : GameState :=
  { createInitialGameState cfg1220 0 with
      board := List.replicate 20 (List.replicate 12 1)
      gameRunning := true }

/-- A 4 x 4 session with full rows at indices 0 and 2 and two partial
rows. -/
def stTwoFull : GameState :=
  { createInitialGameState cfg44 0 with
      board := [[1, 1, 1, 1], [0, 1, 0, 0], [2, 2, 2, 2], [0, 0, 0, 3]]
      gameRunning := true }

/-- A 4 x 4 session with exactly one full row (index 3). -/
def stOneFull : GameState :=
  { createInitialGameState cfg44 0 with
      board := [[0, 0, 0, 0], [0, 1, 0, 0], [0, 0, 2, 0], [3, 3, 3, 3]]
      gameRunning := true }

/-- A 4 x 4 session with occupied cells but no full row. -/
def stNoFull : GameState :=
  { createInitialGameState cfg44 0 with
      board := [[0, 0, 0, 0], [0, 1, 0, 0], [0, 0, 2, 0], [3, 3, 3, 0]]
      gameRunning := true }

/-- A T piece in open space on the default empty board. -/
def pieceT : Piece :=
  { shape := [[1, 1, 1], [0, 1, 0]], x := 4, y := 5, shapeIndex := 0, rotation := 0 }

/-- A running session holding `pieceT` on an empty default board. -/
def stWithT : GameState :=
  { createInitialGameState cfg1220 0 with
      currentPiece := some pieceT
      gameRunning := true }

/-- An O piece in open space on the default empty board. -/
def pieceO : Piece :=
  { shape := [[1, 1], [1, 1]], x := 2, y := 3, shapeIndex := 3, rotation := 0 }

/-- The piece object built by TetrisGame.spawnPiece (src/script.js lines
451-457) for the given random draws: the selected rotation matrix,
horizontally centered, at y = 0. -/
def spawnedPiece (cfg : Config) (shapeIndex rotation : Nat) : Piece :=
  { shape := (SHAPES.getD shapeIndex []).getD rotation []
    x := ((cfg.width / 2 : Nat) : Int) -
      (((((SHAPES.getD shapeIndex []).getD rotation []).headD []).length / 2 : Nat) : Int)
    y := 0
    shapeIndex := shapeIndex
    rotation := rotation }

/-- The candidate piece built by TetrisGame.rotatePiece (src/script.js
lines 570-577): the next listed rotation state, same position. -/
def nextRotationPiece (p : Piece) : Piece :=
  { p with
      shape := (SHAPES.getD p.shapeIndex []).getD
        ((p.rotation + 1) % (SHAPES.getD p.shapeIndex []).length) []
      rotation := (p.rotation + 1) % (SHAPES.getD p.shapeIndex []).length }

theorem isFullRow_emptyRow (cfg : Config) : isFullRow (emptyRow cfg) = false := by
  have hw := cfg.width_valid.1
  simp only [isFullRow, emptyRow]
  rw [List.all_eq_false]
  refine ⟨0, by rw [List.mem_replicate]; omega, by simp⟩

theorem clearLoop_append (cfg : Config) :
    ∀ (fuel : Nat) (P S : List (List Nat)) (c : Nat),
      P.length + countFull P ≤ fuel →
      (∀ row ∈ S, isFullRow row = false) →
      clearLoop cfg (P ++ S) ((P.length : Int) - 1) c =
        (List.replicate (countFull P) (emptyRow cfg) ++
            P.filter (fun r => !isFullRow r) ++ S,
          c + countFull P, true) := by
  intro fuel
  induction fuel with
  | zero =>
    intro P S c hf hS
    have hP : P = [] := by
      cases P with
      | nil => rfl
      | cons a t => simp at hf
    subst hP
    rw [clearLoop]
    simp [countFull]
  | succ fuel ih =>
    intro P S c hf hS
    rcases List.eq_nil_or_concat P with hP | ⟨Q, a, hP⟩
    · subst hP
      rw [clearLoop]
      simp [countFull]
    · subst hP
      simp only [List.concat_eq_append] at hf ⊢
      have hb : (Q ++ [a]) ++ S = Q ++ (a :: S) := by simp
      have hrow : (((Q ++ [a]).length : Int)) - 1 = (Q.length : Int) := by
        simp
      rw [hb, hrow, clearLoop]
      have h0 : ¬((Q.length : Int) < 0) := by omega
      rw [if_neg h0]
      have h1 : ((Q.length : Int)).toNat < (Q ++ a :: S).length := by
        rw [Int.toNat_natCast, List.length_append, List.length_cons]
        omega
      rw [dif_pos h1]
      simp only [Int.toNat_natCast]
      rw [List.getElem_append_right (Nat.le_refl Q.length)]
      simp only [Nat.sub_self, List.getElem_cons_zero]
      by_cases hfull : isFullRow a = true
      · rw [if_pos hfull]
        have hcQa1 : countFull (Q ++ [a]) = countFull Q + 1 := by
          simp [countFull, List.countP_append, List.countP_cons, hfull]
        rw [List.eraseIdx_append_of_length_le (Nat.le_refl Q.length)]
        simp only [Nat.sub_self, List.eraseIdx_cons_zero]
        rw [← List.cons_append]
        have hrow2 : (Q.length : Int) = (((emptyRow cfg :: Q).length : Int)) - 1 := by
          simp
        rw [hrow2]
        have hcE : countFull (emptyRow cfg :: Q) = countFull Q := by
          simp [countFull, List.countP_cons, isFullRow_emptyRow cfg]
        have hm : (emptyRow cfg :: Q).length + countFull (emptyRow cfg :: Q) ≤ fuel := by
          have hf2 := hf
          rw [hcQa1] at hf2
          simp only [List.length_append, List.length_cons, List.length_nil] at hf2
          simp only [List.length_cons, hcE]
          omega
        rw [ih (emptyRow cfg :: Q) S (c + 1) hm hS]
        rw [hcE, hcQa1]
        have hfe : List.filter (fun r => !isFullRow r) (emptyRow cfg :: Q) =
            emptyRow cfg :: List.filter (fun r => !isFullRow r) Q := by
          simp [List.filter_cons, isFullRow_emptyRow cfg]
        have hfa : List.filter (fun r => !isFullRow r) (Q ++ [a]) =
            List.filter (fun r => !isFullRow r) Q := by
          simp [List.filter_append, List.filter_cons, hfull]
        rw [hfe, hfa, List.replicate_succ']
        refine congrArg₂ Prod.mk ?_ ?_
        · simp [List.append_assoc]
        · simp only [Prod.mk.injEq]
          exact ⟨by omega, trivial⟩
      · have hfull2 : isFullRow a = false := by
          simpa using hfull
        rw [if_neg hfull]
        have hcQa0 : countFull (Q ++ [a]) = countFull Q := by
          simp [countFull, List.countP_append, List.countP_cons, hfull2]
        have hS2 : ∀ row ∈ a :: S, isFullRow row = false := by
          intro r hr
          rcases List.mem_cons.mp hr with h2 | h2
          · subst h2; exact hfull2
          · exact hS r h2
        have hm : Q.length + countFull Q ≤ fuel := by
          have hf2 := hf
          rw [hcQa0] at hf2
          simp only [List.length_append, List.length_cons, List.length_nil] at hf2
          omega
        rw [ih Q (a :: S) c hm hS2, hcQa0]
        have hfa : List.filter (fun r => !isFullRow r) (Q ++ [a]) =
            List.filter (fun r => !isFullRow r) Q ++ [a] := by
          simp [List.filter_append, List.filter_cons, hfull2]
        rw [hfa]
        refine congrArg₂ Prod.mk ?_ rfl
        simp [List.append_assoc]

theorem clearLines_eq (cfg : Config) (st : GameState)
    (hlen : st.board.length = cfg.height) :
    clearLines cfg st =
      (if 0 < countFull st.board then
        { st with
            board := List.replicate (countFull st.board) (emptyRow cfg) ++
              st.board.filter (fun r => !isFullRow r)
            lines := st.lines + countFull st.board
            score := st.score + countFull st.board * 100 * st.level
            level := min cfg.maxLevel ((st.lines + countFull st.board) / 10 + 1)
            dropInterval := max 100
              (1000 - (((min cfg.maxLevel ((st.lines + countFull st.board) / 10 + 1) : Nat) : Int) - 1) * 50) }
       else
        { st with
            board := List.replicate (countFull st.board) (emptyRow cfg) ++
              st.board.filter (fun r => !isFullRow r) },
       some (countFull st.board)) := by
  have hloop := clearLoop_append cfg (st.board.length + countFull st.board)
      st.board [] 0 (Nat.le_refl _) (by simp)
  rw [List.append_nil] at hloop
  have hrow : ((cfg.height : Int)) - 1 = ((st.board.length : Int)) - 1 := by
    rw [hlen]
  unfold clearLines
  rw [hrow, hloop]
  simp only [List.append_nil]
  cases hk : countFull st.board with
  | zero => simp
  | succ k => simp

theorem clearLines_stats_on_clear (cfg : Config) (st : GameState) (n : Nat)
    (h : (clearLines cfg st).2 = some n) (hn : 1 ≤ n) :
    (clearLines cfg st).1.score = st.score + n * 100 * st.level ∧
    (clearLines cfg st).1.lines = st.lines + n ∧
    (clearLines cfg st).1.level = min cfg.maxLevel ((st.lines + n) / 10 + 1) ∧
    (clearLines cfg st).1.dropInterval =
      max 100 (1000 - ((((clearLines cfg st).1.level : Nat) : Int) - 1) * 50) := by
  rcases hloop : clearLoop cfg st.board ((cfg.height : Int) - 1) 0 with ⟨b, m, ok⟩
  unfold clearLines at h ⊢
  rw [hloop] at h ⊢
  cases ok with
  | false => simp at h
  | true =>
    dsimp only at h ⊢
    by_cases hm : 0 < m
    · rw [if_pos hm] at h ⊢
      have hmn : m = n := by simpa using h
      subst hmn
      exact ⟨rfl, rfl, rfl, rfl⟩
    · rw [if_neg hm] at h
      have h0 : (0 : Nat) = n := by simpa using h
      omega



theorem countFull_add_countNotFull (l : List (List Nat)) :
    l.countP (fun r => isFullRow r) + l.countP (fun r => !isFullRow r) = l.length := by
  induction l with
  | nil => rfl
  | cons a t ih =>
    by_cases h : isFullRow a = true <;>
      simp [List.countP_cons, h] <;> omega

/-- Claim C4 (amended): on a well-formed board, clearLines removes exactly
the rows that were full at call time, inserts that many empty rows at the
top, preserves the relative order and content of the other rows (the
result is the empty rows followed by the non-full rows in their original
order), keeps the row count equal to height, and its internal
`linesCleared` counter ends at the number of full rows -- but that count
is NOT returned: the function body has no return statement, so the call
evaluates to undefined. -/
theorem clearLines_clears_exactly_full_rows (cfg : Config) (st : GameState)
    (hwf : WellFormedBoard cfg st.board) :
    (clearLines cfg st).2 = some (countFull st.board) ∧
    (clearLines cfg st).1.board =
      List.replicate (countFull st.board) (emptyRow cfg) ++
        st.board.filter (fun r => !isFullRow r) ∧
    (clearLines cfg st).1.board.length = cfg.height ∧
    clearLinesReturnValue cfg st = none := by
  have hlen2 : (List.replicate (countFull st.board) (emptyRow cfg) ++
      st.board.filter (fun r => !isFullRow r)).length = cfg.height := by
    rw [List.length_append, List.length_replicate, ← hwf.1,
      ← List.countP_eq_length_filter]
    exact countFull_add_countNotFull st.board
  rw [clearLines_eq cfg st hwf.1]
  by_cases hk : 0 < countFull st.board
  · rw [if_pos hk]
    exact ⟨rfl, rfl, hlen2, rfl⟩
  · rw [if_neg hk]
    exact ⟨rfl, rfl, hlen2, rfl⟩

/-- Witness for C4 at a concrete 4 x 4 board with two separated full rows
(indices 0 and 2). -/
theorem clearLines_clears_exactly_full_rows_witness :
    (clearLines cfg44 stTwoFull).2 = some (countFull stTwoFull.board) ∧
    (clearLines cfg44 stTwoFull).1.board =
      List.replicate (countFull stTwoFull.board) (emptyRow cfg44) ++
        stTwoFull.board.filter (fun r => !isFullRow r) ∧
    (clearLines cfg44 stTwoFull).1.board.length = cfg44.height ∧
    clearLinesReturnValue cfg44 stTwoFull = none :=
  clearLines_clears_exactly_full_rows cfg44 stTwoFull (by decide)

/-- Counterexample to claim C4 as stated: on the 4 x 4 board with two full
rows the sweep clears two rows, yet the clearLines() call evaluates to
undefined -- the body has no return statement -- and not to the cleared
count 2 that the claim says is returned. -/
theorem clearLines_return_counterexample :
    countFull stTwoFull.board = 2 ∧
    clearLinesReturnValue cfg44 stTwoFull = none ∧
    (none : Option Nat) ≠ some 2 := by
  decide

/-- Claim C5: whenever clearLines clears n >= 1 rows, the score grows by
exactly n * 100 * (pre-update level), the line count grows by n, the new
level is min(maxLevel, (lines + n) / 10 + 1), and the new drop interval is
max(100, 1000 - (newLevel - 1) * 50). -/
theorem clearLines_scoring_leveling (cfg : Config) (st : GameState) (n : Nat)
    (h : (clearLines cfg st).2 = some n) (hn : 1 ≤ n) :
    (clearLines cfg st).1.score = st.score + n * 100 * st.level ∧
    (clearLines cfg st).1.lines = st.lines + n ∧
    (clearLines cfg st).1.level = min cfg.maxLevel ((st.lines + n) / 10 + 1) ∧
    (clearLines cfg st).1.dropInterval =
      max 100 (1000 - ((((clearLines cfg st).1.level : Nat) : Int) - 1) * 50) :=
  clearLines_stats_on_clear cfg st n h hn

/-- Witness for C5 at a concrete 4 x 4 board with exactly one full row. -/
theorem clearLines_scoring_leveling_witness :
    (clearLines cfg44 stOneFull).1.score = stOneFull.score + 1 * 100 * stOneFull.level ∧
    (clearLines cfg44 stOneFull).1.lines = stOneFull.lines + 1 ∧
    (clearLines cfg44 stOneFull).1.level = min cfg44.maxLevel ((stOneFull.lines + 1) / 10 + 1) ∧
    (clearLines cfg44 stOneFull).1.dropInterval =
      max 100 (1000 - ((((clearLines cfg44 stOneFull).1.level : Nat) : Int) - 1) * 50) := by
  have h : (clearLines cfg44 stOneFull).2 = some 1 := by
    rw [clearLines_eq cfg44 stOneFull (by decide)]
    norm_num
    decide
  exact clearLines_scoring_leveling cfg44 stOneFull 1 h (by omega)

/-- Claim C10: when no board row is completely nonzero, clearLines leaves
the whole state (board, score, lines, level, dropInterval) unchanged and
reports zero cleared lines. -/
theorem clearLines_no_full_rows_noop (cfg : Config) (st : GameState)
    (hlen : st.board.length = cfg.height)
    (hnf : ∀ row ∈ st.board, isFullRow row = false) :
    clearLines cfg st = (st, some 0) := by
  have hk : countFull st.board = 0 := by
    simp only [countFull, List.countP_eq_zero]
    intro a ha
    simp [hnf a ha]
  have hfilter : st.board.filter (fun r => !isFullRow r) = st.board := by
    rw [List.filter_eq_self]
    intro a ha
    simp [hnf a ha]
  rw [clearLines_eq cfg st hlen, hk]
  simp only [Nat.lt_irrefl, if_false, List.replicate_zero, List.nil_append, hfilter]

/-- Witness for C10 at a concrete 4 x 4 board with occupied cells but no
full row. -/
theorem clearLines_no_full_rows_noop_witness :
    clearLines cfg44 stNoFull = (stNoFull, some 0) :=
  clearLines_no_full_rows_noop cfg44 stNoFull (by decide) (by decide)

theorem cellCollides_eq_spec (cfg : Config) (board : List (List Nat))
    (hwf : WellFormedBoard cfg board) (X Y : Int) :
    cellCollides cfg board X Y = specCellCollides cfg board X Y := by
  unfold cellCollides specCellCollides
  by_cases h1 : X < 0 ∨ (cfg.width : Int) ≤ X ∨ (cfg.height : Int) ≤ Y
  · rw [if_pos h1, if_pos h1]
  · rw [if_neg h1, if_neg h1]
    push_neg at h1
    obtain ⟨hx0, hxW, hyH⟩ := h1
    refine if_congr ?_ rfl rfl
    constructor
    · rintro ⟨hY0, h2, h3, h4, hocc⟩
      exact ⟨hY0, hocc⟩
    · rintro ⟨hY0, hocc⟩
      have hbl : (board.length : Int) = (cfg.height : Int) := by
        exact_mod_cast hwf.1
      have hYnat : Y.toNat < board.length := by omega
      have hrow : board.getD Y.toNat [] = board[Y.toNat] := by
        rw [List.getD_eq_getElem?_getD, List.getElem?_eq_getElem hYnat, Option.getD_some]
      have hlenrow : (board.getD Y.toNat []).length = cfg.width := by
        rw [hrow]
        exact hwf.2 _ (List.getElem_mem hYnat)
      refine ⟨hY0, by omega, hx0, ?_, hocc⟩
      rw [hlenrow]
      omega

/-- Claim C2 (amended): for a valid piece whose anchor lies inside the
"reasonable bounds" window (-10 <= x <= width + 10, -10 <= y <= height + 10)
and a well-formed board, the collision test returns true exactly when some
occupied cell maps out of bounds left/right/bottom or onto an occupied
board cell with boardY >= 0.  (Outside that window the source's pre-check,
src/script.js lines 497-501, returns true regardless of the cells, so the
claim's iff fails there; see the counterexample.) -/
theorem isCollision_iff_spec (cfg : Config) (board : List (List Nat)) (p : Piece)
    (offX offY : Int)
    (hv : validatePiece p = true)
    (hwf : WellFormedBoard cfg board)
    (hx1 : -10 ≤ p.x) (hx2 : p.x ≤ (cfg.width : Int) + 10)
    (hy1 : -10 ≤ p.y) (hy2 : p.y ≤ (cfg.height : Int) + 10) :
    isCollision cfg board p offX offY = specCollisionTest cfg board p offX offY := by
  unfold isCollision
  rw [if_neg (by simp [hv]), if_neg (by omega)]
  unfold collisionScan specCollisionTest
  refine congrArg _ (funext fun rowPair => congrArg _ (funext fun cellPair => ?_))
  by_cases hc : cellPair.2 ≠ 0
  · rw [if_pos hc, if_pos hc, cellCollides_eq_spec cfg board hwf]
  · rw [if_neg hc, if_neg hc]

/-- Witness for C2 at a concrete in-window piece on the default empty
board. -/
theorem isCollision_iff_spec_witness :
    isCollision cfg1220 (createBoard cfg1220) pieceO 3 4 =
      specCollisionTest cfg1220 (createBoard cfg1220) pieceO 3 4 :=
  isCollision_iff_spec cfg1220 (createBoard cfg1220) pieceO 3 4 (by decide) (by decide)
    (by decide) (by decide) (by decide) (by decide)

/-- Counterexample to claim C2 as stated: the piece anchored at x = -11
with offset +11 maps its only occupied cell to board cell (0, 0), which is
in bounds and empty, so the spec-side test is false; but the source's
anchor pre-check (x < -10) fires and isCollision returns true.  The iff
quantified over all integer offsets therefore fails. -/
theorem isCollision_precheck_counterexample :
    isCollision cfg1220 (createBoard cfg1220)
        { shape := [[1]], x := -11, y := 0, shapeIndex := 0, rotation := 0 } 11 0 = true ∧
    specCollisionTest cfg1220 (createBoard cfg1220)
        { shape := [[1]], x := -11, y := 0, shapeIndex := 0, rotation := 0 } 11 0 = false := by
  decide

/-- Claim C3 (amended): the representable malformations -- empty matrix,
an empty row, or an infinite coordinate -- all make the collision test
return true (fail-closed).  NaN coordinates are NOT caught: they pass the
typeof check and every NaN comparison is false, so the scan can fall
through to false; see the counterexample. -/
theorem isCollisionNum_fail_closed (cfg : Config) (board : List (List Nat))
    (p : PieceJ) (offX offY : Int)
    (h : p.shape = [] ∨ (∃ row ∈ p.shape, row = []) ∨
      p.x = JNum.posInf ∨ p.x = JNum.negInf ∨ p.y = JNum.posInf ∨ p.y = JNum.negInf) :
    isCollisionNum cfg board p offX offY = true := by
  unfold isCollisionNum
  by_cases hv : validatePieceJ p = false
  · rw [if_pos hv]
  · rw [if_neg hv]
    have hv2 : validatePieceJ p = true := by simpa using hv
    unfold validatePieceJ at hv2
    rw [Bool.and_eq_true] at hv2
    obtain ⟨hne, hall⟩ := hv2
    have hpre : (jlt p.x (.fin (-10)) || jgt p.x (.fin ((cfg.width : Int) + 10)) ||
        jlt p.y (.fin (-10)) || jgt p.y (.fin ((cfg.height : Int) + 10))) = true := by
      rcases h with h | h | h | h | h | h
      · rw [h] at hne; simp at hne
      · obtain ⟨row, hrow, hrownil⟩ := h
        have := List.all_eq_true.mp hall row hrow
        rw [hrownil] at this
        simp at this
      · rw [h]; simp [jgt, jlt]
      · rw [h]; simp [jgt, jlt]
      · rw [h]; simp [jgt, jlt]
      · rw [h]; simp [jgt, jlt]
    rw [if_pos hpre]

/-- Witness for C3 at a concrete empty-matrix piece. -/
theorem isCollisionNum_fail_closed_witness :
    isCollisionNum cfg1220 (createBoard cfg1220)
      { shape := [], x := .fin 3, y := .fin 0, shapeIndex := 0, rotation := 0 } 0 0 = true :=
  isCollisionNum_fail_closed cfg1220 (createBoard cfg1220)
    { shape := [], x := .fin 3, y := .fin 0, shapeIndex := 0, rotation := 0 } 0 0
    (Or.inl rfl)

/-- Counterexample to claim C3 as stated: a piece with x = NaN passes
validatePiece (typeof NaN is number), fails no comparison in the anchor
pre-check or the cell checks (NaN comparisons are all false), and the
collision test returns false -- not the claimed fail-closed true. -/
theorem isCollisionNum_nan_counterexample :
    isCollisionNum cfg1220 (createBoard cfg1220)
      { shape := [[1]], x := .nan, y := .fin 0, shapeIndex := 0, rotation := 0 } 0 0 = false := by
  decide

theorem endGame_flags (st : GameState) :
    (endGame st).gameOver = true ∧ (endGame st).gameRunning = false ∧
    (endGame st).currentPiece = st.currentPiece := by
  unfold endGame
  dsimp only
  split <;> exact ⟨rfl, rfl, rfl⟩

/-- Claim C1 (amended): when the freshly spawned piece collides at zero
offset, the session does transition to game over (over = true,
running = false), but the colliding piece has already been installed as
currentPiece (src/script.js line 451 assigns it before the check at line
460) and endGame never removes it -- so a piece IS present, contrary to
the claimed "currentPiece remains absent" and the piece-exists-iff-running
invariant. -/
theorem spawn_collision_ends_game (cfg : Config) (st : GameState) (si rot : Nat)
    (hshape : (SHAPES.getD si []).isEmpty = false)
    (hcol : isCollision cfg st.board (spawnedPiece cfg si rot) 0 0 = true) :
    (spawnPiece cfg st si rot).gameOver = true ∧
    (spawnPiece cfg st si rot).gameRunning = false ∧
    (spawnPiece cfg st si rot).currentPiece = some (spawnedPiece cfg si rot) := by
  unfold spawnedPiece at hcol
  unfold spawnPiece
  rw [if_neg (by rw [hshape]; simp)]
  dsimp only
  rw [if_pos hcol]
  refine ⟨(endGame_flags _).1, (endGame_flags _).2.1, ?_⟩
  rw [(endGame_flags _).2.2]
  rfl

/-- Witness for C1 (amended) on the fully occupied default board: the
blocked spawn ends the game and installs the O piece. -/
theorem spawn_collision_ends_game_witness :
    (spawnPiece cfg1220 stBlocked 3 0).gameOver = true ∧
    (spawnPiece cfg1220 stBlocked 3 0).gameRunning = false ∧
    (spawnPiece cfg1220 stBlocked 3 0).currentPiece = some (spawnedPiece cfg1220 3 0) :=
  spawn_collision_ends_game cfg1220 stBlocked 3 0 (by decide) (by decide)

/-- Counterexample to claim C1 as stated: on the fully occupied board the
blocked spawn sets over = true, yet currentPiece is not absent. -/
theorem spawn_blocked_piece_installed :
    (spawnPiece cfg1220 stBlocked 3 0).gameOver = true ∧
    (spawnPiece cfg1220 stBlocked 3 0).currentPiece ≠ none := by
  decide

/-- Claim C7: for a valid current piece with an existing shape entry,
rotatePiece either leaves the state entirely unchanged (when the candidate
at rotation (current + 1) mod rotationCount collides at zero offset) or
atomically installs exactly that candidate -- next listed matrix and
rotation index together, position unchanged -- with no other state
change. -/
theorem rotatePiece_commits_or_rejects (cfg : Config) (st : GameState) (p : Piece)
    (hcp : st.currentPiece = some p)
    (hv : validatePiece p = true)
    (hne : (SHAPES.getD p.shapeIndex []).isEmpty = false) :
    rotatePiece cfg st =
      (if isCollision cfg st.board (nextRotationPiece p) 0 0 = true
       then st
       else { st with currentPiece := some (nextRotationPiece p) }) := by
  unfold nextRotationPiece
  unfold rotatePiece
  rw [hcp]
  dsimp only
  rw [if_neg (by simp [hv]), if_neg (by rw [hne]; simp)]

/-- Witness for C7: the T piece in open space on the default empty
board. -/
theorem rotatePiece_commits_or_rejects_witness :
    rotatePiece cfg1220 stWithT =
      (if isCollision cfg1220 stWithT.board (nextRotationPiece pieceT) 0 0 = true
       then stWithT
       else { stWithT with currentPiece := some (nextRotationPiece pieceT) }) :=
  rotatePiece_commits_or_rejects cfg1220 stWithT pieceT rfl (by decide) (by decide)

/-- Claim C9: on the empty default 12 x 20 board, the O piece (shapeIndex
3, rotation 0) spawned at the centered position succeeds on exactly
height - 2 = 18 consecutive downward moves, and the 19th downward move
fails leaving the state unchanged. -/
theorem o_piece_descends_height_minus_two :
    dropSuccessCount cfg1220 30
        (spawnPiece cfg1220 (createInitialGameState cfg1220 0) 3 0) =
      cfg1220.height - 2 ∧
    movePiece cfg1220
        (dropIter cfg1220 18 (spawnPiece cfg1220 (createInitialGameState cfg1220 0) 3 0)) 0 1 =
      (dropIter cfg1220 18 (spawnPiece cfg1220 (createInitialGameState cfg1220 0) 3 0), false) := by
  decide

theorem toDigitsRev_ne_nil (n : Nat) : toDigitsRev n ≠ [] := by
  rw [toDigitsRev]
  split <;> simp

theorem toDigitsRev_digits_lt (n : Nat) : ∀ d ∈ toDigitsRev n, d < 10 := by
  induction n using Nat.strong_induction_on with
  | _ n ih =>
    rw [toDigitsRev]
    split
    · intro d hd
      simp only [List.mem_singleton] at hd
      omega
    · intro d hd
      rcases List.mem_cons.mp hd with h | h
      · subst h
        exact Nat.mod_lt _ (by omega)
      · exact ih (n / 10) (Nat.div_lt_self (by omega) (by omega)) d h

theorem foldl_toDigitsRev (n : Nat) :
    (toDigitsRev n).reverse.foldl (fun a d => a * 10 + d) 0 = n := by
  induction n using Nat.strong_induction_on with
  | _ n ih =>
    rw [toDigitsRev]
    split
    · simp
    · rw [List.reverse_cons, List.foldl_append]
      rw [ih (n / 10) (Nat.div_lt_self (by omega) (by omega))]
      simp only [List.foldl_cons, List.foldl_nil]
      omega

theorem natToCodes_all_digits (n : Nat) : ∀ c ∈ natToCodes n, isDigitCode c = true := by
  intro c hc
  unfold natToCodes at hc
  rw [List.mem_map] at hc
  obtain ⟨d, hd, rfl⟩ := hc
  have := toDigitsRev_digits_lt n d (List.mem_reverse.mp hd)
  simp only [isDigitCode, Bool.and_eq_true, decide_eq_true_eq]
  omega

theorem natToCodes_ne_nil (n : Nat) : natToCodes n ≠ [] := by
  unfold natToCodes
  simp [toDigitsRev_ne_nil n]

theorem takeWhile_of_all {p : Nat → Bool} :
    ∀ l : List Nat, (∀ a ∈ l, p a = true) → l.takeWhile p = l := by
  intro l
  induction l with
  | nil => intro _; rfl
  | cons a t ih =>
    intro h
    rw [List.takeWhile_cons, if_pos (h a (by simp))]
    rw [ih (fun b hb => h b (by simp [hb]))]

theorem parseIntJS_natToCodes (n : Nat) : parseIntJS (natToCodes n) = some (n : Int) := by
  rcases hL : natToCodes n with _ | ⟨c, cs⟩
  · exact absurd hL (natToCodes_ne_nil n)
  · have hdigit : ∀ a ∈ c :: cs, isDigitCode a = true := by
      rw [← hL]; exact natToCodes_all_digits n
    have hc := hdigit c (by simp)
    simp only [isDigitCode, Bool.and_eq_true, decide_eq_true_eq] at hc
    have hdrop : (c :: cs).dropWhile isSpaceCode = c :: cs := by
      rw [List.dropWhile_cons, if_neg]
      simp only [isSpaceCode, Bool.or_eq_true, Bool.and_eq_true, decide_eq_true_eq]
      omega
    have hfold : (c :: cs).foldl (fun acc ch => acc * 10 + (ch - 48)) 0 = n := by
      rw [← hL]
      unfold natToCodes
      rw [List.foldl_map]
      have hfun : (fun (acc : Nat) (d : Nat) => acc * 10 + (d + 48 - 48)) =
          (fun (acc : Nat) (d : Nat) => acc * 10 + d) := by
        funext acc d
        omega
      rw [hfun, foldl_toDigitsRev]
    unfold parseIntJS
    dsimp only
    rw [hdrop]
    have hsigned : (if (c :: cs).headD 0 = 45 then ((true : Bool), (c :: cs).tail)
        else if (c :: cs).headD 0 = 43 then ((false : Bool), (c :: cs).tail)
        else ((false : Bool), c :: cs)) = ((false : Bool), c :: cs) := by
      rw [if_neg (by simp only [List.headD_cons]; omega),
        if_neg (by simp only [List.headD_cons]; omega)]
    rw [hsigned]
    dsimp only
    rw [takeWhile_of_all (c :: cs) hdigit]
    rw [if_neg (by simp), if_neg (by simp), hfold]

/-- Claim C8 (amended): the high-score round trip holds for every integer
in [0, 999999999]; every comparable out-of-range value (negative, too
large, or infinite) and every non-number is rejected without mutating the
store; a stored string that parses to NaN or out of range makes load
return 0 and clear the store.  The one exception to "rejected without
mutation" is NaN, which fails neither range comparison and overwrites the
store with the string NaN -- see the counterexample. -/
theorem highScore_store_contract :
    (∀ (store : Option (List Nat)) (n : Int), 0 ≤ n → n ≤ 999999999 →
      loadHighScore (saveHighScore store (.num (.fin n))) =
        (some (natToCodes n.toNat), n)) ∧
    (∀ (store : Option (List Nat)) (n : Int), n < 0 ∨ 999999999 < n →
      saveHighScore store (.num (.fin n)) = store) ∧
    (∀ store : Option (List Nat), saveHighScore store (.num .posInf) = store) ∧
    (∀ store : Option (List Nat), saveHighScore store (.num .negInf) = store) ∧
    (∀ store : Option (List Nat), saveHighScore store .other = store) ∧
    (∀ s : List Nat, parseIntJS s = none → loadHighScore (some s) = (none, 0)) ∧
    (∀ (s : List Nat) (v : Int), parseIntJS s = some v → v < 0 ∨ 999999999 < v →
      loadHighScore (some s) = (none, 0)) := by
  refine ⟨?_, ?_, ?_, ?_, ?_, ?_, ?_⟩
  · intro store n h0 h9
    have hsave : saveHighScore store (.num (.fin n)) = some (natToCodes n.toNat) := by
      unfold saveHighScore
      dsimp only
      rw [if_neg (by simp [jlt, jgt]; omega)]
      dsimp only [jfloor, jnumToCodes]
      unfold intToCodes
      rw [if_neg (by omega)]
    rw [hsave]
    unfold loadHighScore
    dsimp only
    rw [parseIntJS_natToCodes n.toNat]
    have hn : ((n.toNat : Nat) : Int) = n := Int.toNat_of_nonneg h0
    dsimp only
    rw [hn, if_neg (by omega)]
  · intro store n h
    unfold saveHighScore
    dsimp only
    rw [if_pos (by simp [jlt, jgt]; omega)]
  · intro store
    unfold saveHighScore
    dsimp only
    rw [if_pos (by simp [jlt, jgt])]
  · intro store
    unfold saveHighScore
    dsimp only
    rw [if_pos (by simp [jlt, jgt])]
  · intro store
    rfl
  · intro s h
    unfold loadHighScore
    dsimp only
    rw [h]
  · intro s v h hout
    unfold loadHighScore
    dsimp only
    rw [h]
    dsimp only
    rw [if_pos (by omega)]

/-- Witness for C8: saving 42 into an empty store and loading it back. -/
theorem highScore_store_contract_witness :
    loadHighScore (saveHighScore none (.num (.fin 42))) =
      (some (natToCodes (42 : Int).toNat), 42) :=
  highScore_store_contract.1 none 42 (by omega) (by omega)

/-- Counterexample to claim C8 as stated: NaN is outside [0, 999999999]
but passes both range comparisons (NaN comparisons are false), so
save(NaN) mutates the store, overwriting the stored "5" with the string
"NaN" (codes 78, 97, 78). -/
theorem saveHighScore_nan_mutates :
    saveHighScore (some [53]) (.num .nan) = some [78, 97, 78] ∧
    some [78, 97, 78] ≠ (some [53] : Option (List Nat)) := by
  constructor
  · rfl
  · simp

theorem inv_of_stats (cfg : Config) (st st' : GameState) (h : Inv cfg st)
    (h1 : st'.lines = st.lines) (h2 : st'.level = st.level)
    (h3 : st'.dropInterval = st.dropInterval) :
    Inv cfg st' ∧ st.lines ≤ st'.lines := by
  refine ⟨⟨?_, ?_⟩, le_of_eq h1.symm⟩
  · rw [h2, h1]; exact h.1
  · rw [h3, h2]; exact h.2

theorem movePiece_stats (cfg : Config) (st : GameState) (dx dy : Int) :
    (movePiece cfg st dx dy).1.lines = st.lines ∧
    (movePiece cfg st dx dy).1.level = st.level ∧
    (movePiece cfg st dx dy).1.dropInterval = st.dropInterval := by
  unfold movePiece
  rcases hcp : st.currentPiece with _ | p
  · exact ⟨rfl, rfl, rfl⟩
  · dsimp only
    by_cases hv : validatePiece p = false
    · rw [if_pos hv]; exact ⟨rfl, rfl, rfl⟩
    · rw [if_neg hv]
      by_cases hcol : isCollision cfg st.board p dx dy = true
      · rw [if_pos hcol]; exact ⟨rfl, rfl, rfl⟩
      · rw [if_neg hcol]; exact ⟨rfl, rfl, rfl⟩

theorem movePiece_false_id (cfg : Config) (st st' : GameState) (dx dy : Int)
    (h : movePiece cfg st dx dy = (st', false)) : st' = st := by
  unfold movePiece at h
  rcases hcp : st.currentPiece with _ | p <;> rw [hcp] at h <;> dsimp only at h
  · injection h with h1 h2; exact h1.symm
  · by_cases hv : validatePiece p = false
    · rw [if_pos hv] at h; injection h with h1 h2; exact h1.symm
    · rw [if_neg hv] at h
      by_cases hcol : isCollision cfg st.board p dx dy = true
      · rw [if_pos hcol] at h; injection h with h1 h2; exact h1.symm
      · rw [if_neg hcol] at h; injection h with h1 h2; exact absurd h2 (by simp)

theorem movePiece_true_step (cfg : Config) (st st' : GameState)
    (h : movePiece cfg st 0 1 = (st', true)) :
    ∃ p, st.currentPiece = some p ∧ p.y ≤ (cfg.height : Int) + 10 ∧
      st' = { st with currentPiece := some { p with x := p.x + 0, y := p.y + 1 } } := by
  unfold movePiece at h
  rcases hcp : st.currentPiece with _ | p <;> rw [hcp] at h <;> dsimp only at h
  · injection h with h1 h2; exact absurd h2 (by simp)
  · by_cases hv : validatePiece p = false
    · rw [if_pos hv] at h; injection h with h1 h2; exact absurd h2 (by simp)
    · rw [if_neg hv] at h
      by_cases hcol : isCollision cfg st.board p 0 1 = true
      · rw [if_pos hcol] at h; injection h with h1 h2; exact absurd h2 (by simp)
      · rw [if_neg hcol] at h
        injection h with h1 h2
        refine ⟨p, rfl, ?_, h1.symm⟩
        have hcf : isCollision cfg st.board p 0 1 = false := by simpa using hcol
        rw [isCollision, if_neg hv] at hcf
        by_cases hpre : p.x < -10 ∨ (cfg.width : Int) + 10 < p.x ∨
            p.y < -10 ∨ (cfg.height : Int) + 10 < p.y
        · rw [if_pos hpre] at hcf; simp at hcf
        · push_neg at hpre; omega

theorem endGame_stats (st : GameState) :
    (endGame st).lines = st.lines ∧ (endGame st).level = st.level ∧
    (endGame st).dropInterval = st.dropInterval := by
  unfold endGame
  dsimp only
  split <;> exact ⟨rfl, rfl, rfl⟩

theorem spawnPiece_stats (cfg : Config) (st : GameState) (si rot : Nat) :
    (spawnPiece cfg st si rot).lines = st.lines ∧
    (spawnPiece cfg st si rot).level = st.level ∧
    (spawnPiece cfg st si rot).dropInterval = st.dropInterval := by
  unfold spawnPiece
  by_cases hsh : (SHAPES.getD si []).isEmpty = true
  · rw [if_pos hsh]; exact ⟨rfl, rfl, rfl⟩
  · rw [if_neg hsh]
    dsimp only
    split
    · exact ⟨(endGame_stats _).1, (endGame_stats _).2.1, (endGame_stats _).2.2⟩
    · exact ⟨rfl, rfl, rfl⟩

theorem rotatePiece_stats (cfg : Config) (st : GameState) :
    (rotatePiece cfg st).lines = st.lines ∧
    (rotatePiece cfg st).level = st.level ∧
    (rotatePiece cfg st).dropInterval = st.dropInterval := by
  unfold rotatePiece
  rcases hcp : st.currentPiece with _ | p
  · exact ⟨rfl, rfl, rfl⟩
  · dsimp only
    by_cases hv : validatePiece p = false
    · rw [if_pos hv]; exact ⟨rfl, rfl, rfl⟩
    · rw [if_neg hv]
      by_cases hsh : (SHAPES.getD p.shapeIndex []).isEmpty = true
      · rw [if_pos hsh]; exact ⟨rfl, rfl, rfl⟩
      · rw [if_neg hsh]
        split <;> exact ⟨rfl, rfl, rfl⟩

theorem pauseGame_stats (st : GameState) (inactivity : Bool) :
    (pauseGame st inactivity).lines = st.lines ∧
    (pauseGame st inactivity).level = st.level ∧
    (pauseGame st inactivity).dropInterval = st.dropInterval := by
  unfold pauseGame
  dsimp only
  split
  · split <;> exact ⟨rfl, rfl, rfl⟩
  · exact ⟨rfl, rfl, rfl⟩

theorem softDrop_stats (cfg : Config) (st : GameState) :
    (softDrop cfg st).lines = st.lines ∧
    (softDrop cfg st).level = st.level ∧
    (softDrop cfg st).dropInterval = st.dropInterval := by
  unfold softDrop
  have hs := movePiece_stats cfg st 0 1
  rcases hmp : movePiece cfg st 0 1 with ⟨st', b⟩
  rw [hmp] at hs
  cases b
  · exact hs
  · exact hs

theorem clearLines_inv (cfg : Config) (st : GameState) (h : Inv cfg st) :
    Inv cfg (clearLines cfg st).1 ∧ st.lines ≤ (clearLines cfg st).1.lines := by
  rcases hloop : clearLoop cfg st.board ((cfg.height : Int) - 1) 0 with ⟨b, m, ok⟩
  unfold clearLines
  rw [hloop]
  cases ok with
  | false => exact ⟨⟨h.1, h.2⟩, le_refl _⟩
  | true =>
    dsimp only
    by_cases hm : 0 < m
    · rw [if_pos hm]
      exact ⟨⟨rfl, rfl⟩, by dsimp only; omega⟩
    · rw [if_neg hm]
      exact ⟨⟨h.1, h.2⟩, le_refl _⟩

theorem mergePiece_inv (cfg : Config) (st : GameState) (si rot : Nat) (h : Inv cfg st) :
    Inv cfg (mergePiece cfg st si rot) ∧ st.lines ≤ (mergePiece cfg st si rot).lines := by
  unfold mergePiece
  rcases hcp : st.currentPiece with _ | p
  · have hs := spawnPiece_stats cfg st si rot
    exact inv_of_stats cfg st _ h hs.1 hs.2.1 hs.2.2
  · dsimp only
    by_cases hv : validatePiece p = false
    · rw [if_pos hv]
      have hs := spawnPiece_stats cfg st si rot
      exact inv_of_stats cfg st _ h hs.1 hs.2.1 hs.2.2
    · rw [if_neg hv]
      have h1 : Inv cfg { st with board := mergeCells cfg st.board p, currentPiece := some p } :=
        ⟨h.1, h.2⟩
      have h2 := clearLines_inv cfg
        { st with board := mergeCells cfg st.board p, currentPiece := some p } h1
      have hs := spawnPiece_stats cfg
        (clearLines cfg { st with board := mergeCells cfg st.board p, currentPiece := some p }).1
        si rot
      have h3 := inv_of_stats cfg _ _ h2.1 hs.1 hs.2.1 hs.2.2
      exact ⟨h3.1, le_trans h2.2 h3.2⟩

theorem hardDropLoop_stats (cfg : Config) :
    ∀ (fuel : Nat) (st : GameState), hmeasure cfg st ≤ fuel →
      (hardDropLoop cfg st).lines = st.lines ∧
      (hardDropLoop cfg st).level = st.level ∧
      (hardDropLoop cfg st).dropInterval = st.dropInterval := by
  intro fuel
  induction fuel with
  | zero =>
    intro st hm
    rw [hardDropLoop]
    split
    · rename_i st' hmv
      obtain ⟨p, hcp, hy, hst'⟩ := movePiece_true_step cfg st st' hmv
      exfalso
      simp only [hmeasure, hcp] at hm
      omega
    · rename_i st' hmv
      rw [movePiece_false_id cfg st st' 0 1 hmv]
      exact ⟨rfl, rfl, rfl⟩
  | succ fuel ih =>
    intro st hm
    rw [hardDropLoop]
    split
    · rename_i st' hmv
      obtain ⟨p, hcp, hy, hst'⟩ := movePiece_true_step cfg st st' hmv
      have hms : hmeasure cfg { st' with score := st'.score + 1 } ≤ fuel := by
        subst hst'
        simp only [hmeasure, hcp] at hm ⊢
        omega
      have hrec := ih { st' with score := st'.score + 1 } hms
      subst hst'
      exact hrec
    · rename_i st' hmv
      rw [movePiece_false_id cfg st st' 0 1 hmv]
      exact ⟨rfl, rfl, rfl⟩

theorem hardDrop_inv (cfg : Config) (st : GameState) (si rot : Nat) (h : Inv cfg st) :
    Inv cfg (hardDrop cfg st si rot) ∧ st.lines ≤ (hardDrop cfg st si rot).lines := by
  unfold hardDrop
  have hl := hardDropLoop_stats cfg (hmeasure cfg st) st (le_refl _)
  have h2 := inv_of_stats cfg st (hardDropLoop cfg st) h hl.1 hl.2.1 hl.2.2
  have h3 := mergePiece_inv cfg (hardDropLoop cfg st) si rot h2.1
  exact ⟨h3.1, le_trans h2.2 h3.2⟩

theorem respawn_step_inv (cfg : Config) (s : GameState) (si rot : Nat) (h : Inv cfg s) :
    Inv cfg (match s.currentPiece with
             | some p => if validatePiece p = false then spawnPiece cfg s si rot else s
             | none => s) ∧
    (match s.currentPiece with
     | some p => if validatePiece p = false then spawnPiece cfg s si rot else s
     | none => s).lines = s.lines := by
  rcases hcp : s.currentPiece with _ | p
  · exact ⟨⟨h.1, h.2⟩, rfl⟩
  · dsimp only
    by_cases hv : validatePiece p = false
    · rw [if_pos hv]
      have hs := spawnPiece_stats cfg s si rot
      exact ⟨(inv_of_stats cfg s _ h hs.1 hs.2.1 hs.2.2).1, hs.1⟩
    · rw [if_neg hv]
      exact ⟨⟨h.1, h.2⟩, rfl⟩

theorem clamp_inv (cfg : Config) (s : GameState) (h : Inv cfg s) :
    Inv cfg { s with
        score := max 0 s.score
        level := max 1 (min cfg.maxLevel s.level)
        lines := max 0 s.lines
        dropInterval := max 100 s.dropInterval } ∧
    ({ s with
        score := max 0 s.score
        level := max 1 (min cfg.maxLevel s.level)
        lines := max 0 s.lines
        dropInterval := max 100 s.dropInterval } : GameState).lines = s.lines := by
  have hml := cfg.maxLevel_valid.1
  have hclamp : max 1 (min cfg.maxLevel s.level) = s.level := by
    rw [h.1, ← min_assoc, min_self]
    exact max_eq_right (le_min hml (by omega))
  refine ⟨⟨?_, ?_⟩, max_eq_right (Nat.zero_le _)⟩
  · show max 1 (min cfg.maxLevel s.level) = min cfg.maxLevel (max 0 s.lines / 10 + 1)
    rw [hclamp, max_eq_right (Nat.zero_le _)]
    exact h.1
  · show (max 100 s.dropInterval : Int) =
      max 100 (1000 - (((max 1 (min cfg.maxLevel s.level) : Nat) : Int) - 1) * 50)
    rw [hclamp, h.2, ← max_assoc, max_self]

theorem validateAndFix_inv (cfg : Config) (st : GameState) (si rot : Nat) (h : Inv cfg st) :
    Inv cfg (validateAndFixGameState cfg st si rot) ∧
    st.lines ≤ (validateAndFixGameState cfg st si rot).lines := by
  unfold validateAndFixGameState
  dsimp only
  by_cases hb : st.board.length ≠ cfg.height
  · rw [if_pos hb]
    have h1 : Inv cfg { st with board := createBoard cfg } := ⟨h.1, h.2⟩
    have h2 := respawn_step_inv cfg { st with board := createBoard cfg } si rot h1
    have h3 := clamp_inv cfg _ h2.1
    exact ⟨h3.1, le_of_eq (h2.2.symm.trans h3.2.symm)⟩
  · rw [if_neg hb]
    have h2 := respawn_step_inv cfg st si rot h
    have h3 := clamp_inv cfg _ h2.1
    exact ⟨h3.1, le_of_eq (h2.2.symm.trans h3.2.symm)⟩

theorem tick_inv (cfg : Config) (st : GameState) (dt : Int) (si rot : Nat)
    (h : Inv cfg st) :
    Inv cfg (updateGameLogic cfg st dt si rot) ∧
    st.lines ≤ (updateGameLogic cfg st dt si rot).lines := by
  unfold updateGameLogic
  dsimp only
  split
  · have hs := movePiece_stats cfg { st with dropCounter := st.dropCounter + dt } 0 1
    rcases hmp : movePiece cfg { st with dropCounter := st.dropCounter + dt } 0 1 with ⟨st', b⟩
    rw [hmp] at hs
    cases b
    · dsimp only
      have hInv' : Inv cfg st' := by
        refine ⟨?_, ?_⟩
        · rw [hs.2.1, hs.1]; exact h.1
        · rw [hs.2.2, hs.2.1]; exact h.2
      have hm := mergePiece_inv cfg st' si rot hInv'
      refine ⟨⟨hm.1.1, hm.1.2⟩, ?_⟩
      calc st.lines = st'.lines := hs.1.symm
        _ ≤ (mergePiece cfg st' si rot).lines := hm.2
        _ = ({ mergePiece cfg st' si rot with dropCounter := 0 } : GameState).lines := rfl
    · dsimp only
      refine ⟨⟨?_, ?_⟩, le_of_eq hs.1.symm⟩
      · rw [hs.2.1, hs.1]; exact h.1
      · rw [hs.2.2, hs.2.1]; exact h.2
  · exact ⟨⟨h.1, h.2⟩, le_refl _⟩

theorem applyOp_inv (cfg : Config) (op : EngineOp) (st : GameState) (h : Inv cfg st) :
    Inv cfg (applyOp cfg op st) ∧ st.lines ≤ (applyOp cfg op st).lines := by
  cases op with
  | move dx dy =>
    have hs := movePiece_stats cfg st dx dy
    exact inv_of_stats cfg st _ h hs.1 hs.2.1 hs.2.2
  | softDropOp =>
    have hs := softDrop_stats cfg st
    exact inv_of_stats cfg st _ h hs.1 hs.2.1 hs.2.2
  | rotate =>
    have hs := rotatePiece_stats cfg st
    exact inv_of_stats cfg st _ h hs.1 hs.2.1 hs.2.2
  | hardDropOp si rot => exact hardDrop_inv cfg st si rot h
  | merge si rot => exact mergePiece_inv cfg st si rot h
  | clear => exact clearLines_inv cfg st h
  | spawn si rot =>
    have hs := spawnPiece_stats cfg st si rot
    exact inv_of_stats cfg st _ h hs.1 hs.2.1 hs.2.2
  | endOp =>
    have hs := endGame_stats st
    exact inv_of_stats cfg st _ h hs.1 hs.2.1 hs.2.2
  | pauseOp inactivity =>
    have hs := pauseGame_stats st inactivity
    exact inv_of_stats cfg st _ h hs.1 hs.2.1 hs.2.2
  | fix si rot => exact validateAndFix_inv cfg st si rot h
  | tick dt si rot => exact tick_inv cfg st dt si rot h

theorem applyOps_inv (cfg : Config) (ops : List EngineOp) :
    ∀ st : GameState, Inv cfg st →
      Inv cfg (applyOps cfg ops st) ∧ st.lines ≤ (applyOps cfg ops st).lines := by
  induction ops with
  | nil => intro st h; exact ⟨⟨h.1, h.2⟩, le_refl _⟩
  | cons op rest ih =>
    intro st h
    have h1 := applyOp_inv cfg op st h
    have h2 := ih (applyOp cfg op st) h1.1
    exact ⟨h2.1, le_trans h1.2 h2.2⟩

theorem initial_inv (cfg : Config) (hs : Nat) : Inv cfg (createInitialGameState cfg hs) := by
  have hml := cfg.maxLevel_valid.1
  constructor
  · show (1 : Nat) = min cfg.maxLevel (0 / 10 + 1)
    rw [Nat.zero_div]
    omega
  · show (1000 : Int) = max 100 (1000 - (((1 : Nat) : Int) - 1) * 50)
    norm_num

theorem inv_level_le (cfg : Config) (s t : GameState) (h : Inv cfg s) (h2 : Inv cfg t)
    (hl : s.lines ≤ t.lines) : s.level ≤ t.level := by
  rw [h.1, h2.1]
  have := Nat.div_le_div_right (c := 10) hl
  exact min_le_min (le_refl _) (by omega)

theorem inv_dropInterval_le (cfg : Config) (s t : GameState) (h : Inv cfg s)
    (h2 : Inv cfg t) (hlev : s.level ≤ t.level) : t.dropInterval ≤ s.dropInterval := by
  rw [h.2, h2.2]
  have hc : (s.level : Int) ≤ (t.level : Int) := by exact_mod_cast hlev
  exact max_le_max (le_refl _) (by omega)

theorem inv_dropInterval_ge (cfg : Config) (s : GameState) (h : Inv cfg s) :
    100 ≤ s.dropInterval := by
  rw [h.2]
  exact le_max_left _ _

/-- Claim C6: within one session (starting from the freshly initialized
state), across every sequence of engine operations, the level always equals
min(maxLevel, lines / 10 + 1) (in particular after every clear), the level
is non-decreasing, and the drop interval is non-increasing and never drops
below 100. -/
theorem level_monotone_dropInterval_bounded (cfg : Config) (hs : Nat)
    (ops tail : List EngineOp) :
    (applyOps cfg ops (createInitialGameState cfg hs)).level =
      min cfg.maxLevel ((applyOps cfg ops (createInitialGameState cfg hs)).lines / 10 + 1) ∧
    (applyOps cfg ops (createInitialGameState cfg hs)).level ≤
      (applyOps cfg tail (applyOps cfg ops (createInitialGameState cfg hs))).level ∧
    (applyOps cfg tail (applyOps cfg ops (createInitialGameState cfg hs))).dropInterval ≤
      (applyOps cfg ops (createInitialGameState cfg hs)).dropInterval ∧
    100 ≤ (applyOps cfg tail (applyOps cfg ops (createInitialGameState cfg hs))).dropInterval := by
  have h0 := initial_inv cfg hs
  have h1 := applyOps_inv cfg ops (createInitialGameState cfg hs) h0
  have h2 := applyOps_inv cfg tail (applyOps cfg ops (createInitialGameState cfg hs)) h1.1
  have hlev := inv_level_le cfg _ _ h1.1 h2.1 h2.2
  exact ⟨h1.1.1, hlev, inv_dropInterval_le cfg _ _ h1.1 h2.1 hlev,
    inv_dropInterval_ge cfg _ h2.1⟩

end Tetris
